import Mathlib

/-!
# Verification of `py_crypto_hd_wallet` BIP wallet assembly

Shallow embedding of `src/py_crypto_hd_wallet/bip/hd_wallet_bip.py`
(`HdWalletBip`: constructor/`__InitData`, `Generate`, `IsWatchOnly`,
`__SetKeys`) together with the external collaborators it calls
(`bip_utils` BIP44 derivation, `HdWalletBase._SetData`,
`HdWalletBipAddresses`), which are not part of the repository sources
and are therefore modelled from the specification.
-/

namespace HdWalletBip

/-- BIP44 derivation levels (`Bip44Levels` of `bip_utils`), ordered from
master down to address index. -/
inductive Bip44Level where
  | master
  | purpose
  | coin
  | account
  | change
  | addressIndex
deriving DecidableEq, Repr

/-- Modelled from the spec: a `Bip44Base` extended-key object of `bip_utils`
(missing from the sources). It carries the derivation level it represents,
whether it is public-only (watch-only), the derivation path walked so far
(list of raw child indices), and the immutable coin configuration data the
wallet code reads (`purpose` index, coin index, `SpecName()`,
`CoinConf().CoinNames()`). Derivation produces a new object, never mutates
in place. -/
structure Bip44Obj where
  level : Bip44Level
  isPublicOnly : Bool
  path : List Nat
  purposeIdx : Nat
  coinIdx : Nat
  specName : String
  coinName : String
  coinAbbr : String
deriving DecidableEq, Repr

/-- `Bip32KeyDataConst.KEY_INDEX_MAX_VAL` = 2^32 - 1. -/
def keyIndexMaxVal : Int := 2 ^ 32 - 1

/-- Hardened child index: `index + 2^31`. -/
def hardenedIdx (n : Nat) : Nat := 2 ^ 31 + n

/-- Errors raised by `Generate` and the derivation collaborators.
`invalidChangeType` is the `TypeError` of line 111 (spec name
`InvalidChangeTypeError`); `rangeOverflow` is the `ValueError` of lines
113/115 (spec name `RangeOverflowError`); the last two are the derivation
errors of spec section 4.2/4.3. -/
inductive GenError where
  | invalidChangeType
  | rangeOverflow
  | privateKeyRequired
  | invalidIndex
deriving DecidableEq, Repr

/-- The `change_idx` argument as received via `**kwargs`: a genuine
`HdWalletBipChanges` member (`CHAIN_EXT` = 0, `CHAIN_INT` = 1) or any
other Python value, for which `isinstance` fails (`notAChange`). -/
inductive ChangeArg where
  | chainExt
  | chainInt
  | notAChange
deriving DecidableEq, Repr

/-- `int(change_idx)` for a valid change argument. -/
def changeArgToNat : ChangeArg → Nat
  | .chainExt => 0
  | .chainInt => 1
  | .notAChange => 0

/-- Modelled from the spec: `Bip44Base.Purpose()` (hardened derivation of
the purpose index; requires the private key, spec 4.2). -/
def purposeDerive (b : Bip44Obj) : Except GenError Bip44Obj :=
  if b.isPublicOnly then .error .privateKeyRequired
  else .ok { b with level := .purpose, path := b.path ++ [hardenedIdx b.purposeIdx] }

/-- Modelled from the spec: `Bip44Base.Coin()` (hardened derivation of the
configured coin index). -/
def coinDerive (b : Bip44Obj) : Except GenError Bip44Obj :=
  if b.isPublicOnly then .error .privateKeyRequired
  else .ok { b with level := .coin, path := b.path ++ [hardenedIdx b.coinIdx] }

/-- Modelled from the spec: `Bip44Base.Account(acc_idx)` (hardened; the
account index must fit uint32, spec 4.3, and the private key must be
present). -/
def accountDerive (b : Bip44Obj) (accIdx : Int) : Except GenError Bip44Obj :=
  if accIdx < 0 ∨ keyIndexMaxVal < accIdx then .error .invalidIndex
  else if b.isPublicOnly then .error .privateKeyRequired
  else .ok { b with level := .account, path := b.path ++ [hardenedIdx accIdx.toNat] }

/-- Modelled from the spec: `Bip44Base.Change(change_idx)` (non-hardened,
works on public-only keys; CHAIN_EXT/CHAIN_INT select branch 0/1). -/
def changeDerive (b : Bip44Obj) (c : ChangeArg) : Bip44Obj :=
  { b with level := .change, path := b.path ++ [changeArgToNat c] }

/-- Modelled from the spec: `Bip44Base.AddressIndex(i)` (non-hardened
derivation of address-index child `i`). -/
def addressIndexDerive (b : Bip44Obj) (i : Nat) : Bip44Obj :=
  { b with level := .addressIndex, path := b.path ++ [i] }

/-- The raw child index at which an extended key was derived from its
parent (the last path component). -/
def childIndex (b : Bip44Obj) : Nat := b.path.getLastD 0

/-- Modelled from the spec: `HdWalletBipAddresses(bip_obj, addr_num,
addr_off)` (its module is missing from the sources). If the object is
already an address-index-level key it is the single pre-derived address;
otherwise children `addr_off .. addr_off + addr_num - 1` are derived in
ascending index order (spec 4.3/4.4). -/
def hdWalletBipAddresses (b : Bip44Obj) (addrNum addrOff : Nat) : List Bip44Obj :=
  if b.level = .addressIndex then [b]
  else (List.range addrNum).map (fun i => addressIndexDerive b (addrOff + i))

/-- The data types of `HdWalletBipDataTypes`. -/
inductive DataType where
  | walletName
  | coinName
  | specName
  | mnemonic
  | passphrase
  | seedBytes
  | accountIdx
  | changeIdx
  | masterKey
  | purposeKey
  | coinKey
  | accountKey
  | changeKey
  | addressOff
  | address
deriving DecidableEq, Repr

/-- `HdWalletBipConst.DATA_TYPE_TO_DICT_KEY`: the dictionary key of each
data type. -/
def dictKey : DataType → String
  | .walletName => "wallet_name"
  | .coinName => "coin_name"
  | .specName => "spec_name"
  | .mnemonic => "mnemonic"
  | .passphrase => "passphrase"
  | .seedBytes => "seed_bytes"
  | .accountIdx => "account_idx"
  | .changeIdx => "change_idx"
  | .masterKey => "master_key"
  | .purposeKey => "purpose_key"
  | .coinKey => "coin_key"
  | .accountKey => "account_key"
  | .changeKey => "change_key"
  | .addressOff => "address_off"
  | .address => "address"

/-- A value stored in the wallet data dictionary: a string, a Python int,
an `HdWalletBipKeys(bip_obj)` wrapper, or an `HdWalletBipAddresses`
result. -/
inductive WalletValue where
  | str (s : String)
  | int (n : Int)
  | keys (k : Bip44Obj)
  | addresses (l : List Bip44Obj)
deriving DecidableEq, Repr

/-- The wallet data dictionary: association list with unique keys in
insertion order, as a Python `dict`. -/
abbrev Data := List (DataType × WalletValue)

/-- Modelled from the spec: `HdWalletBase._SetData` (missing from the
sources) stores a value in the wallet data dictionary: overwriting keeps
the key's position, a new key is appended. -/
def setData : Data → DataType → WalletValue → Data
  | [], k, v => [(k, v)]
  | (k0, v0) :: rest, k, v =>
      if k0 = k then (k, v) :: rest else (k0, v0) :: setData rest k v

/-- Dictionary lookup by data type. -/
def lookupData : Data → DataType → Option WalletValue
  | [], _ => none
  | (k0, v0) :: rest, k => if k0 = k then some v0 else lookupData rest k

/-- The wallet object: the stored `m_bip_obj` and the accumulated wallet
data dictionary. -/
structure Wallet where
  bipObj : Bip44Obj
  data : Data
deriving DecidableEq, Repr

/-- `Utils.BytesToHexString` (lowercase hex of the seed bytes). -/
def bytesToHexString (bs : List Nat) : String :=
  String.join (bs.map (fun b => (Nat.toDigits 16 (b / 16 % 16)).asString ++ (Nat.toDigits 16 (b % 16)).asString))

/-- `HdWalletBip.__InitData`: wallet name, spec name and coin name are
always set; mnemonic and passphrase only when the mnemonic is non-empty;
seed bytes (as hex) only when non-empty. -/
def initData (b : Bip44Obj) (walletName mnemonic passphrase : String)
    (seedBytes : List Nat) : Data :=
  let d : Data := []
  let d := setData d .walletName (.str walletName)
  let d := setData d .specName (.str b.specName)
  let d := setData d .coinName (.str (b.coinName ++ " (" ++ b.coinAbbr ++ ")"))
  let d :=
    if mnemonic ≠ "" then
      setData (setData d .mnemonic (.str mnemonic)) .passphrase (.str passphrase)
    else d
  if seedBytes ≠ [] then setData d .seedBytes (.str (bytesToHexString seedBytes)) else d

/-- `HdWalletBip.__init__`: stores the BIP object and initializes the data
dictionary. -/
def mkWallet (b : Bip44Obj) (walletName mnemonic passphrase : String)
    (seedBytes : List Nat) : Wallet :=
  { bipObj := b, data := initData b walletName mnemonic passphrase seedBytes }

/-- The keyword arguments of `Generate`, with their Python defaults. -/
structure GenParams where
  accIdx : Int := 0
  changeIdx : ChangeArg := .chainExt
  addrNum : Int := 20
  addrOff : Int := 0
deriving DecidableEq, Repr

/-- Lines 121-123: at MASTER level, store the master keys and derive the
purpose object. On a derivation error the data written so far is kept
(Python mutates `self` in place before the exception propagates). -/
def blockMaster (b : Bip44Obj) (d : Data) : Except (GenError × Data) (Bip44Obj × Data) :=
  if b.level = .master then
    let d1 := setData d .masterKey (.keys b)
    match purposeDerive b with
    | .error e => .error (e, d1)
    | .ok b1 => .ok (b1, d1)
  else .ok (b, d)

/-- Lines 125-127: at PURPOSE level, store the purpose keys and derive the
coin object. -/
def blockPurpose (b : Bip44Obj) (d : Data) : Except (GenError × Data) (Bip44Obj × Data) :=
  if b.level = .purpose then
    let d1 := setData d .purposeKey (.keys b)
    match coinDerive b with
    | .error e => .error (e, d1)
    | .ok b1 => .ok (b1, d1)
  else .ok (b, d)

/-- Lines 129-132: at COIN level, store the coin keys and the account
index, then derive the account object. -/
def blockCoin (b : Bip44Obj) (d : Data) (accIdx : Int) :
    Except (GenError × Data) (Bip44Obj × Data) :=
  if b.level = .coin then
    let d1 := setData d .coinKey (.keys b)
    let d2 := setData d1 .accountIdx (.int accIdx)
    match accountDerive b accIdx with
    | .error e => .error (e, d2)
    | .ok b1 => .ok (b1, d2)
  else .ok (b, d)

/-- Lines 134-137: at ACCOUNT level, store the account keys and the change
index, then derive the change object (non-hardened, cannot fail). -/
def blockAccount (b : Bip44Obj) (d : Data) (c : ChangeArg) :
    Except (GenError × Data) (Bip44Obj × Data) :=
  if b.level = .account then
    let d1 := setData d .accountKey (.keys b)
    let d2 := setData d1 .changeIdx (.int (changeArgToNat c))
    .ok (changeDerive b c, d2)
  else .ok (b, d)

/-- Lines 140-152: at CHANGE level, store the change keys, the address
offset (only when nonzero) and the addresses; otherwise (address-index
level key) store the single pre-derived address. -/
def blockFinal (b : Bip44Obj) (d : Data) (addrNum addrOff : Int) : Data :=
  if b.level = .change then
    let d1 := setData d .changeKey (.keys b)
    let d2 := if addrOff ≠ 0 then setData d1 .addressOff (.int addrOff) else d1
    setData d2 .address (.addresses (hdWalletBipAddresses b addrNum.toNat addrOff.toNat))
  else
    setData d .address (.addresses (hdWalletBipAddresses b 1 0))

/-- The level-walking part of `Generate` (lines 117-137): the four
conditional derivation blocks in sequence. -/
def walk (b : Bip44Obj) (d : Data) (accIdx : Int) (c : ChangeArg) :
    Except (GenError × Data) (Bip44Obj × Data) := do
  let s1 ← blockMaster b d
  let s2 ← blockPurpose s1.1 s1.2
  let s3 ← blockCoin s2.1 s2.2 accIdx
  blockAccount s3.1 s3.2 c

/-- `HdWalletBip.Generate`: parameter validation (change type, address
number, address offset), then the level walk and the final address block.
Returns the call outcome together with the wallet as it stands afterwards
(on an error raised mid-derivation, `self` keeps the mutations made before
the raise). -/
def generate (w : Wallet) (p : GenParams) : Except GenError Unit × Wallet :=
  if p.changeIdx = ChangeArg.notAChange then
    (.error .invalidChangeType, w)
  else if p.addrNum < 0 ∨ keyIndexMaxVal < p.addrNum then
    (.error .rangeOverflow, w)
  else if p.addrOff < 0 ∨ keyIndexMaxVal < p.addrOff + p.addrNum then
    (.error .rangeOverflow, w)
  else
    match walk w.bipObj w.data p.accIdx p.changeIdx with
    | .error (e, d) => (.error e, { w with data := d })
    | .ok (b, d) => (.ok (), { w with data := blockFinal b d p.addrNum p.addrOff })

/-- `HdWalletBip.IsWatchOnly`: `m_bip_obj.IsPublicOnly()`. -/
def isWatchOnly (w : Wallet) : Bool := w.bipObj.isPublicOnly

/-- A sequence of `Generate` calls on the same wallet. -/
def generateMany (w : Wallet) (ps : List GenParams) : Wallet :=
  ps.foldl (fun w p => (generate w p).2) w

/-- The data dictionary carried by a walk outcome, error or success. -/
def exData : Except (GenError × Data) (Bip44Obj × Data) → Data
  | .error p => p.2
  | .ok p => p.2

/-! ## Dictionary lemmas -/

theorem lookupData_setData_same (d : Data) (k : DataType) (v : WalletValue) :
    lookupData (setData d k v) k = some v := by
  induction d with
  | nil => simp [setData, lookupData]
  | cons hd tl ih =>
      obtain ⟨k0, v0⟩ := hd
      by_cases h : k0 = k <;> simp [setData, lookupData, h, ih]

theorem lookupData_setData_ne (d : Data) (k k0 : DataType) (v : WalletValue)
    (h : k0 ≠ k) : lookupData (setData d k v) k0 = lookupData d k0 := by
  have hk : ¬(k = k0) := fun hh => h hh.symm
  induction d with
  | nil => simp [setData, lookupData, hk]
  | cons hd tl ih =>
      obtain ⟨k1, v1⟩ := hd
      by_cases h1 : k1 = k
      · subst h1
        simp [setData, lookupData, hk]
      · simp [setData, lookupData, h1, ih]

/-! ## Derivation error classification -/

theorem purposeDerive_error_class (b : Bip44Obj) (e : GenError)
    (h : purposeDerive b = .error e) : e = GenError.privateKeyRequired := by
  unfold purposeDerive at h
  split at h <;> simp_all

theorem coinDerive_error_class (b : Bip44Obj) (e : GenError)
    (h : coinDerive b = .error e) : e = GenError.privateKeyRequired := by
  unfold coinDerive at h
  split at h <;> simp_all

theorem accountDerive_error_class (b : Bip44Obj) (i : Int) (e : GenError)
    (h : accountDerive b i = .error e) :
    e = GenError.privateKeyRequired ∨ e = GenError.invalidIndex := by
  unfold accountDerive at h
  split at h
  · simp_all
  · split at h <;> simp_all

/-! ## Block lemmas -/

theorem blockMaster_exData (b : Bip44Obj) (d : Data) (k : DataType)
    (hk : k ≠ DataType.masterKey) :
    lookupData (exData (blockMaster b d)) k = lookupData d k := by
  unfold blockMaster
  split
  · cases hp : purposeDerive b with
    | error e => simp [exData, lookupData_setData_ne _ _ _ _ hk]
    | ok b1 => simp [exData, lookupData_setData_ne _ _ _ _ hk]
  · simp [exData]

theorem blockPurpose_exData (b : Bip44Obj) (d : Data) (k : DataType)
    (hk : k ≠ DataType.purposeKey) :
    lookupData (exData (blockPurpose b d)) k = lookupData d k := by
  unfold blockPurpose
  split
  · cases hp : coinDerive b with
    | error e => simp [exData, lookupData_setData_ne _ _ _ _ hk]
    | ok b1 => simp [exData, lookupData_setData_ne _ _ _ _ hk]
  · simp [exData]

theorem blockCoin_exData (b : Bip44Obj) (d : Data) (a : Int) (k : DataType)
    (hk1 : k ≠ DataType.coinKey) (hk2 : k ≠ DataType.accountIdx) :
    lookupData (exData (blockCoin b d a)) k = lookupData d k := by
  unfold blockCoin
  split
  · cases hp : accountDerive b a with
    | error e =>
        simp [exData, lookupData_setData_ne _ _ _ _ hk2, lookupData_setData_ne _ _ _ _ hk1]
    | ok b1 =>
        simp [exData, lookupData_setData_ne _ _ _ _ hk2, lookupData_setData_ne _ _ _ _ hk1]
  · simp [exData]

theorem blockAccount_exData (b : Bip44Obj) (d : Data) (c : ChangeArg) (k : DataType)
    (hk1 : k ≠ DataType.accountKey) (hk2 : k ≠ DataType.changeIdx) :
    lookupData (exData (blockAccount b d c)) k = lookupData d k := by
  unfold blockAccount
  split
  · simp [exData, lookupData_setData_ne _ _ _ _ hk2, lookupData_setData_ne _ _ _ _ hk1]
  · simp [exData]

theorem blockMaster_ok_level (b : Bip44Obj) (d : Data) (b1 : Bip44Obj) (d1 : Data)
    (h : blockMaster b d = .ok (b1, d1)) :
    b1.level = Bip44Level.purpose ∨ (b1 = b ∧ d1 = d ∧ b.level ≠ Bip44Level.master) := by
  unfold blockMaster at h
  split at h
  · cases hp : purposeDerive b with
    | error e => rw [hp] at h; cases h
    | ok b2 =>
        rw [hp] at h
        unfold purposeDerive at hp
        split at hp
        · cases hp
        · left
          cases hp
          cases h
          rfl
  · right
    cases h
    simp_all

theorem blockPurpose_ok_level (b : Bip44Obj) (d : Data) (b1 : Bip44Obj) (d1 : Data)
    (h : blockPurpose b d = .ok (b1, d1)) :
    b1.level = Bip44Level.coin ∨ (b1 = b ∧ d1 = d ∧ b.level ≠ Bip44Level.purpose) := by
  unfold blockPurpose at h
  split at h
  · cases hp : coinDerive b with
    | error e => rw [hp] at h; cases h
    | ok b2 =>
        rw [hp] at h
        unfold coinDerive at hp
        split at hp
        · cases hp
        · left
          cases hp
          cases h
          rfl
  · right
    cases h
    simp_all

theorem blockCoin_ok_level (b : Bip44Obj) (d : Data) (a : Int) (b1 : Bip44Obj) (d1 : Data)
    (h : blockCoin b d a = .ok (b1, d1)) :
    b1.level = Bip44Level.account ∨ (b1 = b ∧ d1 = d ∧ b.level ≠ Bip44Level.coin) := by
  unfold blockCoin at h
  split at h
  · cases hp : accountDerive b a with
    | error e => rw [hp] at h; cases h
    | ok b2 =>
        rw [hp] at h
        unfold accountDerive at hp
        split at hp
        · cases hp
        · split at hp
          · cases hp
          · left
            cases hp
            cases h
            rfl
  · right
    cases h
    simp_all

theorem blockAccount_ok_level (b : Bip44Obj) (d : Data) (c : ChangeArg) (b1 : Bip44Obj) (d1 : Data)
    (h : blockAccount b d c = .ok (b1, d1)) :
    b1.level = Bip44Level.change ∨ (b1 = b ∧ d1 = d ∧ b.level ≠ Bip44Level.account) := by
  unfold blockAccount at h
  split at h
  · left
    cases h
    rfl
  · right
    cases h
    simp_all

/-! ## Walk lemmas -/

theorem walk_ok_level (b : Bip44Obj) (d : Data) (a : Int) (c : ChangeArg)
    (b1 : Bip44Obj) (d1 : Data) (h : walk b d a c = .ok (b1, d1)) :
    b1.level = Bip44Level.change ∨
      (b1 = b ∧ d1 = d ∧ b.level = Bip44Level.addressIndex) := by
  unfold walk at h
  cases hm : blockMaster b d with
  | error p => rw [hm] at h; simp [bind, Except.bind] at h
  | ok s1 =>
      obtain ⟨bA, dA⟩ := s1
      rw [hm] at h
      simp only [bind, Except.bind] at h
      cases hp : blockPurpose bA dA with
      | error p => rw [hp] at h; simp at h
      | ok s2 =>
          obtain ⟨bB, dB⟩ := s2
          rw [hp] at h
          simp only at h
          cases hc : blockCoin bB dB a with
          | error p => rw [hc] at h; simp at h
          | ok s3 =>
              obtain ⟨bC, dC⟩ := s3
              rw [hc] at h
              simp only at h
              rcases blockAccount_ok_level bC dC c b1 d1 h with hL | ⟨hb4, hd4, hn4⟩
              · exact Or.inl hL
              rcases blockCoin_ok_level bB dB a bC dC hc with hL | ⟨hb3, hd3, hn3⟩
              · exact absurd hL hn4
              rcases blockPurpose_ok_level bA dA bB dB hp with hL | ⟨hb2, hd2, hn2⟩
              · exact absurd hL hn3
              rcases blockMaster_ok_level b d bA dA hm with hL | ⟨hb1, hd1, hn1⟩
              · exact absurd hL hn2
              have hb : b1 = b := by rw [hb4, hb3, hb2, hb1]
              have hdd : d1 = d := by rw [hd4, hd3, hd2, hd1]
              have g4 : b.level ≠ Bip44Level.account := by
                rw [← hb1, ← hb2, ← hb3]; exact hn4
              have g3 : b.level ≠ Bip44Level.coin := by
                rw [← hb1, ← hb2]; exact hn3
              have g2 : b.level ≠ Bip44Level.purpose := by
                rw [← hb1]; exact hn2
              cases hlv : b.level with
              | change => exact Or.inl (by rw [hb]; exact hlv)
              | addressIndex => exact Or.inr ⟨hb, hdd, rfl⟩
              | master => exact absurd hlv hn1
              | purpose => exact absurd hlv g2
              | coin => exact absurd hlv g3
              | account => exact absurd hlv g4

theorem walk_error_class (b : Bip44Obj) (d : Data) (a : Int) (c : ChangeArg)
    (e : GenError) (d1 : Data) (h : walk b d a c = .error (e, d1)) :
    e = GenError.privateKeyRequired ∨ e = GenError.invalidIndex := by
  unfold walk at h
  cases hm : blockMaster b d with
  | error p =>
      rw [hm] at h
      simp only [bind, Except.bind] at h
      obtain ⟨rfl, -⟩ : p = (e, d1) := by cases h; rfl
      unfold blockMaster at hm
      split at hm
      · cases hq : purposeDerive b with
        | error e0 =>
            rw [hq] at hm
            cases hm
            exact Or.inl (purposeDerive_error_class b e hq)
        | ok b2 => rw [hq] at hm; cases hm
      · cases hm
  | ok s1 =>
      obtain ⟨bA, dA⟩ := s1
      rw [hm] at h
      simp only [bind, Except.bind] at h
      cases hp : blockPurpose bA dA with
      | error p =>
          rw [hp] at h
          simp only at h
          obtain ⟨rfl, -⟩ : p = (e, d1) := by cases h; rfl
          unfold blockPurpose at hp
          split at hp
          · cases hq : coinDerive bA with
            | error e0 =>
                rw [hq] at hp
                cases hp
                exact Or.inl (coinDerive_error_class bA e hq)
            | ok b2 => rw [hq] at hp; cases hp
          · cases hp
      | ok s2 =>
          obtain ⟨bB, dB⟩ := s2
          rw [hp] at h
          simp only at h
          cases hc : blockCoin bB dB a with
          | error p =>
              rw [hc] at h
              simp only at h
              obtain ⟨rfl, -⟩ : p = (e, d1) := by cases h; rfl
              unfold blockCoin at hc
              split at hc
              · cases hq : accountDerive bB a with
                | error e0 =>
                    rw [hq] at hc
                    cases hc
                    exact accountDerive_error_class bB a e hq
                | ok b2 => rw [hq] at hc; cases hc
              · cases hc
          | ok s3 =>
              obtain ⟨bC, dC⟩ := s3
              rw [hc] at h
              simp only at h
              unfold blockAccount at h
              split at h
              · cases h
              · cases h

theorem exData_bind (x : Except (GenError × Data) (Bip44Obj × Data))
    (f : Bip44Obj × Data → Except (GenError × Data) (Bip44Obj × Data)) (k : DataType)
    (hf : ∀ s : Bip44Obj × Data, lookupData (exData (f s)) k = lookupData s.2 k) :
    lookupData (exData (x >>= f)) k = lookupData (exData x) k := by
  cases x with
  | error p => simp [bind, Except.bind, exData]
  | ok s => simpa [bind, Except.bind, exData] using hf s

theorem walk_exData (b : Bip44Obj) (d : Data) (a : Int) (c : ChangeArg) (k : DataType)
    (h1 : k ≠ DataType.masterKey) (h2 : k ≠ DataType.purposeKey)
    (h3 : k ≠ DataType.coinKey) (h4 : k ≠ DataType.accountIdx)
    (h5 : k ≠ DataType.accountKey) (h6 : k ≠ DataType.changeIdx) :
    lookupData (exData (walk b d a c)) k = lookupData d k := by
  unfold walk
  have step4 : ∀ s : Bip44Obj × Data,
      lookupData (exData (blockAccount s.1 s.2 c)) k = lookupData s.2 k :=
    fun s => blockAccount_exData s.1 s.2 c k h5 h6
  have step3 : ∀ s : Bip44Obj × Data,
      lookupData (exData (blockCoin s.1 s.2 a >>= fun s3 => blockAccount s3.1 s3.2 c)) k =
        lookupData s.2 k := by
    intro s
    rw [exData_bind _ _ k step4]
    exact blockCoin_exData s.1 s.2 a k h3 h4
  have step2 : ∀ s : Bip44Obj × Data,
      lookupData (exData (blockPurpose s.1 s.2 >>= fun s2 =>
        blockCoin s2.1 s2.2 a >>= fun s3 => blockAccount s3.1 s3.2 c)) k =
        lookupData s.2 k := by
    intro s
    rw [exData_bind _ _ k step3]
    exact blockPurpose_exData s.1 s.2 k h2
  rw [exData_bind _ _ k step2]
  exact blockMaster_exData b d k h1

/-! ## Generate branch lemmas -/

theorem generate_eq_of_badChange (w : Wallet) (p : GenParams)
    (h : p.changeIdx = ChangeArg.notAChange) :
    generate w p = (.error .invalidChangeType, w) := by
  unfold generate
  rw [if_pos h]

theorem generate_eq_of_badNum (w : Wallet) (p : GenParams)
    (hc : p.changeIdx ≠ ChangeArg.notAChange)
    (h : p.addrNum < 0 ∨ keyIndexMaxVal < p.addrNum) :
    generate w p = (.error .rangeOverflow, w) := by
  unfold generate
  rw [if_neg hc, if_pos h]

theorem generate_eq_of_badOff (w : Wallet) (p : GenParams)
    (hc : p.changeIdx ≠ ChangeArg.notAChange)
    (hn : ¬(p.addrNum < 0 ∨ keyIndexMaxVal < p.addrNum))
    (h : p.addrOff < 0 ∨ keyIndexMaxVal < p.addrOff + p.addrNum) :
    generate w p = (.error .rangeOverflow, w) := by
  unfold generate
  rw [if_neg hc, if_neg hn, if_pos h]

theorem generate_eq_of_walk (w : Wallet) (p : GenParams)
    (hc : p.changeIdx ≠ ChangeArg.notAChange)
    (hn : ¬(p.addrNum < 0 ∨ keyIndexMaxVal < p.addrNum))
    (ho : ¬(p.addrOff < 0 ∨ keyIndexMaxVal < p.addrOff + p.addrNum)) :
    generate w p =
      match walk w.bipObj w.data p.accIdx p.changeIdx with
      | .error (e, d) => (.error e, { w with data := d })
      | .ok (b, d) => (.ok (), { w with data := blockFinal b d p.addrNum p.addrOff }) := by
  unfold generate
  rw [if_neg hc, if_neg hn, if_neg ho]

theorem generate_bipObj (w : Wallet) (p : GenParams) :
    ((generate w p).2).bipObj = w.bipObj := by
  unfold generate
  split
  · rfl
  · split
    · rfl
    · split
      · rfl
      · cases hw : walk w.bipObj w.data p.accIdx p.changeIdx with
        | error q => rfl
        | ok s => rfl

/-! ## Concrete instances used by witnesses and counterexamples -/

/-- A concrete master-level private BIP44 Bitcoin object. -/
def cexObj : Bip44Obj :=
  { level := .master, isPublicOnly := false, path := [], purposeIdx := 44,
    coinIdx := 0, specName := "BIP-0044", coinName := "Bitcoin", coinAbbr := "BTC" }

/-- A concrete address-index-level object (path m/44h/0h/0h/0/7). -/
def cexAddrObj : Bip44Obj :=
  { level := .addressIndex, isPublicOnly := false,
    path := [hardenedIdx 44, hardenedIdx 0, hardenedIdx 0, 0, 7], purposeIdx := 44,
    coinIdx := 0, specName := "BIP-0044", coinName := "Bitcoin", coinAbbr := "BTC" }

/-- A concrete wallet built from the master-level object. -/
def cexWallet : Wallet := mkWallet cexObj "hd_wallet" "" "" []

/-- A concrete wallet built from the address-index-level object. -/
def cexAddrWallet : Wallet := mkWallet cexAddrObj "hd_wallet" "" "" []

/-- Parameters with one address at offset 5. -/
def cexParamsOff5 : GenParams :=
  { accIdx := 0, changeIdx := .chainExt, addrNum := 1, addrOff := 5 }

/-- Parameters with one address at offset 0. -/
def cexParamsOff0 : GenParams :=
  { accIdx := 0, changeIdx := .chainExt, addrNum := 1, addrOff := 0 }

/-- Parameters with a negative account index (fails inside derivation). -/
def cexParamsBadAcc : GenParams :=
  { accIdx := -1, changeIdx := .chainExt, addrNum := 1, addrOff := 0 }

/-- Parameters with a negative address number. -/
def cexParamsBadNum : GenParams :=
  { accIdx := 0, changeIdx := .chainExt, addrNum := -1, addrOff := 0 }

/-- Parameters whose change index is not an `HdWalletBipChanges` member. -/
def cexParamsBadChange : GenParams :=
  { accIdx := 0, changeIdx := .notAChange, addrNum := 1, addrOff := 0 }

/-! ## Claims -/

/-- C1: for every fixed wallet state (same underlying BIP object and same
data dictionary, hence same wallet name, mnemonic, passphrase and seed
bytes) and every identical parameter tuple, two independent `Generate`
calls produce identical outcomes and identical WalletTree contents. -/
theorem generate_deterministic (w1 w2 : Wallet) (p : GenParams)
    (hb : w1.bipObj = w2.bipObj) (hd : w1.data = w2.data) :
    generate w1 p = generate w2 p := by
  obtain ⟨b1, d1⟩ := w1
  obtain ⟨b2, d2⟩ := w2
  cases hb
  cases hd
  rfl

/-- Witness for C1 at a concrete wallet and parameters. -/
theorem generate_deterministic_witness :
    generate cexWallet cexParamsOff0 = generate cexWallet cexParamsOff0 :=
  generate_deterministic cexWallet cexWallet cexParamsOff0 rfl rfl

/-- C7: `Generate` raises the change-type error iff the `change_idx`
argument is not a recognized `HdWalletBipChanges` variant, and in that
case the wallet state is completely untouched (the check is the first
thing the call does). -/
theorem generate_change_type_error_iff (w : Wallet) (p : GenParams) :
    (((generate w p).1 = Except.error GenError.invalidChangeType) ↔
      p.changeIdx = ChangeArg.notAChange) ∧
    (p.changeIdx = ChangeArg.notAChange → (generate w p).2 = w) := by
  constructor
  · constructor
    · intro h
      by_contra hc
      by_cases hn : p.addrNum < 0 ∨ keyIndexMaxVal < p.addrNum
      · rw [generate_eq_of_badNum w p hc hn] at h
        exact GenError.noConfusion (Except.error.inj h)
      · by_cases ho : p.addrOff < 0 ∨ keyIndexMaxVal < p.addrOff + p.addrNum
        · rw [generate_eq_of_badOff w p hc hn ho] at h
          exact GenError.noConfusion (Except.error.inj h)
        · rw [generate_eq_of_walk w p hc hn ho] at h
          cases hw : walk w.bipObj w.data p.accIdx p.changeIdx with
          | error q =>
              obtain ⟨e, dq⟩ := q
              rw [hw] at h
              simp only at h
              rcases walk_error_class _ _ _ _ _ _ hw with he | he <;>
                · rw [Except.error.inj h] at he
                  exact GenError.noConfusion he
          | ok s =>
              obtain ⟨bq, dq⟩ := s
              rw [hw] at h
              exact Except.noConfusion h
    · intro h
      rw [generate_eq_of_badChange w p h]
  · intro h
    rw [generate_eq_of_badChange w p h]

/-- Witness for C7 at a concrete wallet and an invalid change argument. -/
theorem generate_change_type_error_iff_witness :
    (((generate cexWallet cexParamsBadChange).1 =
        Except.error GenError.invalidChangeType) ↔
      cexParamsBadChange.changeIdx = ChangeArg.notAChange) ∧
    (cexParamsBadChange.changeIdx = ChangeArg.notAChange →
      (generate cexWallet cexParamsBadChange).2 = cexWallet) :=
  generate_change_type_error_iff cexWallet cexParamsBadChange

/-- C2: with a valid change argument, `Generate(addr_num=N, addr_off=O)`
raises the range error iff N is negative, O is negative, or O+N exceeds
2^32 - 1, and when it does the wallet state is completely untouched (the
check precedes any derivation or storage). -/
theorem generate_range_error_iff (w : Wallet) (p : GenParams)
    (hc : p.changeIdx ≠ ChangeArg.notAChange) :
    (((generate w p).1 = Except.error GenError.rangeOverflow) ↔
      (p.addrNum < 0 ∨ p.addrOff < 0 ∨ keyIndexMaxVal < p.addrOff + p.addrNum)) ∧
    ((generate w p).1 = Except.error GenError.rangeOverflow →
      (generate w p).2 = w) := by
  by_cases hn : p.addrNum < 0 ∨ keyIndexMaxVal < p.addrNum
  · rw [generate_eq_of_badNum w p hc hn]
    refine ⟨⟨fun _ => ?_, fun _ => rfl⟩, fun _ => rfl⟩
    unfold keyIndexMaxVal at hn ⊢
    omega
  · by_cases ho : p.addrOff < 0 ∨ keyIndexMaxVal < p.addrOff + p.addrNum
    · rw [generate_eq_of_badOff w p hc hn ho]
      refine ⟨⟨fun _ => ?_, fun _ => rfl⟩, fun _ => rfl⟩
      unfold keyIndexMaxVal at ho ⊢
      omega
    · rw [generate_eq_of_walk w p hc hn ho]
      cases hw : walk w.bipObj w.data p.accIdx p.changeIdx with
      | error q =>
          obtain ⟨e, dq⟩ := q
          simp only
          constructor
          · constructor
            · intro h
              rcases walk_error_class _ _ _ _ _ _ hw with he | he <;>
                · rw [Except.error.inj h] at he
                  exact absurd he (by simp)
            · intro h
              exact absurd h (by unfold keyIndexMaxVal at hn ho ⊢; omega)
          · intro h
            rcases walk_error_class _ _ _ _ _ _ hw with he | he <;>
              · rw [Except.error.inj h] at he
                exact absurd he (by simp)
      | ok s =>
          obtain ⟨bq, dq⟩ := s
          simp only
          constructor
          · constructor
            · intro h
              exact Except.noConfusion h
            · intro h
              exact absurd h (by unfold keyIndexMaxVal at hn ho ⊢; omega)
          · intro h
            exact Except.noConfusion h

/-- Witness for C2 at a concrete wallet and a negative address number. -/
theorem generate_range_error_iff_witness :
    ((((generate cexWallet cexParamsBadNum).1 = Except.error GenError.rangeOverflow) ↔
      (cexParamsBadNum.addrNum < 0 ∨ cexParamsBadNum.addrOff < 0 ∨
        keyIndexMaxVal < cexParamsBadNum.addrOff + cexParamsBadNum.addrNum)) ∧
    ((generate cexWallet cexParamsBadNum).1 = Except.error GenError.rangeOverflow →
      (generate cexWallet cexParamsBadNum).2 = cexWallet)) :=
  generate_range_error_iff cexWallet cexParamsBadNum (by decide)

/-- `generateMany` never changes the stored BIP object. -/
theorem generateMany_bipObj (ps : List GenParams) (w : Wallet) :
    (generateMany w ps).bipObj = w.bipObj := by
  induction ps generalizing w with
  | nil => rfl
  | cons p ps ih =>
      show (generateMany (generate w p).2 ps).bipObj = w.bipObj
      rw [ih, generate_bipObj]

/-- C8: `IsWatchOnly()` returns true iff the extended key the wallet was
constructed from is public-only, and the answer is unaffected by any
number of intervening `Generate` calls. -/
theorem isWatchOnly_invariant (b : Bip44Obj) (walletName mnemonic passphrase : String)
    (seedBytes : List Nat) (ps : List GenParams) :
    isWatchOnly (generateMany (mkWallet b walletName mnemonic passphrase seedBytes) ps) =
      b.isPublicOnly := by
  unfold isWatchOnly
  rw [generateMany_bipObj]
  rfl

/-- C10: at construction, the passphrase is recorded iff the mnemonic
argument is non-empty (a passphrase supplied with an empty mnemonic is
silently discarded), and the mnemonic field is absent exactly when the
mnemonic argument is empty. -/
theorem initData_passphrase_iff_mnemonic (b : Bip44Obj)
    (walletName mnemonic passphrase : String) (seedBytes : List Nat) :
    (lookupData (mkWallet b walletName mnemonic passphrase seedBytes).data
        DataType.passphrase ≠ none ↔ mnemonic ≠ "") ∧
    (lookupData (mkWallet b walletName mnemonic passphrase seedBytes).data
        DataType.mnemonic ≠ none ↔ mnemonic ≠ "") := by
  unfold mkWallet initData
  by_cases hm : mnemonic = "" <;> by_cases hs : seedBytes = [] <;>
    simp [hm, hs, setData, lookupData]

/-- A key already below CHANGE level skips every derivation block. -/
theorem walk_addressIndex (b : Bip44Obj) (d : Data) (a : Int) (c : ChangeArg)
    (hl : b.level = Bip44Level.addressIndex) :
    walk b d a c = .ok (b, d) := by
  unfold walk blockMaster blockPurpose blockCoin blockAccount
  simp [hl, bind, Except.bind]

/-- C6: if the supplied key is already below the CHANGE level (an
address-index-level key), a `Generate` call with valid parameters
succeeds, stores exactly the one pre-derived address (derived count 1 at
offset 0, regardless of `addr_num` and `addr_off`), and records no key or
index entry for the skipped levels (every data type other than the
address entry is untouched). -/
theorem generate_address_level_single (w : Wallet) (p : GenParams)
    (hl : w.bipObj.level = Bip44Level.addressIndex)
    (hc : p.changeIdx ≠ ChangeArg.notAChange)
    (hn1 : 0 ≤ p.addrNum) (hn2 : p.addrNum ≤ keyIndexMaxVal)
    (ho1 : 0 ≤ p.addrOff) (ho2 : p.addrOff + p.addrNum ≤ keyIndexMaxVal) :
    (generate w p).1 = Except.ok () ∧
    lookupData (generate w p).2.data DataType.address =
      some (WalletValue.addresses [w.bipObj]) ∧
    ∀ k, k ≠ DataType.address →
      lookupData (generate w p).2.data k = lookupData w.data k := by
  have hn : ¬(p.addrNum < 0 ∨ keyIndexMaxVal < p.addrNum) :=
    not_or.mpr ⟨not_lt.mpr hn1, not_lt.mpr hn2⟩
  have ho : ¬(p.addrOff < 0 ∨ keyIndexMaxVal < p.addrOff + p.addrNum) :=
    not_or.mpr ⟨not_lt.mpr ho1, not_lt.mpr ho2⟩
  rw [generate_eq_of_walk w p hc hn ho,
    walk_addressIndex w.bipObj w.data p.accIdx p.changeIdx hl]
  refine ⟨rfl, ?_, ?_⟩
  · show lookupData (blockFinal w.bipObj w.data p.addrNum p.addrOff) DataType.address = _
    unfold blockFinal hdWalletBipAddresses
    simp [hl, lookupData_setData_same]
  · intro k hk
    show lookupData (blockFinal w.bipObj w.data p.addrNum p.addrOff) k = _
    unfold blockFinal hdWalletBipAddresses
    simp [hl, lookupData_setData_ne _ _ _ _ hk]

/-- Witness for C6: an address-index-level wallet with the default-style
parameters. -/
theorem generate_address_level_single_witness :
    (generate cexAddrWallet cexParamsOff5).1 = Except.ok () ∧
    lookupData (generate cexAddrWallet cexParamsOff5).2.data DataType.address =
      some (WalletValue.addresses [cexAddrWallet.bipObj]) ∧
    ∀ k, k ≠ DataType.address →
      lookupData (generate cexAddrWallet cexParamsOff5).2.data k =
        lookupData cexAddrWallet.data k :=
  generate_address_level_single cexAddrWallet cexParamsOff5 (by decide) (by decide)
    (by decide) (by decide) (by decide) (by decide)

/-- The last element of a path extended by one index is that index. -/
theorem getLastD_append_singleton (l : List Nat) (j : Nat) :
    (l ++ [j]).getLastD 0 = j := by
  induction l with
  | nil => rfl
  | cons x xs ih =>
      cases xs with
      | nil => rfl
      | cons y ys => simp [List.getLastD]

/-- The child index of an address-index derivation is the derived index. -/
theorem childIndex_addressIndexDerive (b : Bip44Obj) (j : Nat) :
    childIndex (addressIndexDerive b j) = j := by
  unfold childIndex addressIndexDerive
  exact getLastD_append_singleton b.path j

/-- C3: a `Generate(addr_num=N, addr_off=O)` call that succeeds on a
wallet whose key is at CHANGE level or above stores an ADDRESS entry with
exactly N addresses, whose child indices are O, O+1, ..., O+N-1 in
ascending order. -/
theorem generate_address_range (w : Wallet) (p : GenParams)
    (hl : w.bipObj.level ≠ Bip44Level.addressIndex)
    (hok : (generate w p).1 = Except.ok ()) :
    ∃ l : List Bip44Obj,
      lookupData (generate w p).2.data DataType.address =
        some (WalletValue.addresses l) ∧
      l.length = p.addrNum.toNat ∧
      l.map childIndex = (List.range p.addrNum.toNat).map (fun i => p.addrOff.toNat + i) := by
  by_cases hc : p.changeIdx = ChangeArg.notAChange
  · rw [generate_eq_of_badChange w p hc] at hok
    exact absurd hok (by simp)
  by_cases hn : p.addrNum < 0 ∨ keyIndexMaxVal < p.addrNum
  · rw [generate_eq_of_badNum w p hc hn] at hok
    exact absurd hok (by simp)
  by_cases ho : p.addrOff < 0 ∨ keyIndexMaxVal < p.addrOff + p.addrNum
  · rw [generate_eq_of_badOff w p hc hn ho] at hok
    exact absurd hok (by simp)
  rw [generate_eq_of_walk w p hc hn ho] at hok ⊢
  cases hw : walk w.bipObj w.data p.accIdx p.changeIdx with
  | error q =>
      obtain ⟨e, dq⟩ := q
      rw [hw] at hok
      exact absurd hok (by simp)
  | ok s =>
      obtain ⟨b1, d1⟩ := s
      rcases walk_ok_level _ _ _ _ _ _ hw with hchg | ⟨hb, hd, hlv⟩
      · have hne : ¬(b1.level = Bip44Level.addressIndex) := by
          rw [hchg]
          simp
        refine ⟨hdWalletBipAddresses b1 p.addrNum.toNat p.addrOff.toNat, ?_, ?_, ?_⟩
        · show lookupData (blockFinal b1 d1 p.addrNum p.addrOff) DataType.address = _
          unfold blockFinal
          rw [if_pos hchg]
          exact lookupData_setData_same _ _ _
        · unfold hdWalletBipAddresses
          rw [if_neg hne]
          simp
        · unfold hdWalletBipAddresses
          rw [if_neg hne, List.map_map]
          congr 1
          funext i
          exact childIndex_addressIndexDerive b1 (p.addrOff.toNat + i)
      · exact absurd hlv hl

/-- Witness for C3: a master-level wallet generating one address at
offset 5. -/
theorem generate_address_range_witness :
    cexWallet.bipObj.level ≠ Bip44Level.addressIndex ∧
    (generate cexWallet cexParamsOff5).1 = Except.ok () ∧
    ∃ l : List Bip44Obj,
      lookupData (generate cexWallet cexParamsOff5).2.data DataType.address =
        some (WalletValue.addresses l) ∧
      l.length = cexParamsOff5.addrNum.toNat ∧
      l.map childIndex =
        (List.range cexParamsOff5.addrNum.toNat).map
          (fun i => cexParamsOff5.addrOff.toNat + i) :=
  ⟨by decide, rfl, generate_address_range cexWallet cexParamsOff5 (by decide) rfl⟩

/-- C5 (amended): a `Generate` call whose `addr_off` argument is 0 never
writes the address-offset entry, so whatever address-offset value existed
before the call (for example one recorded by an earlier call with a
nonzero offset) survives unchanged. -/
theorem generate_zero_off_preserves_address_off (w : Wallet) (p : GenParams)
    (h0 : p.addrOff = 0) :
    lookupData (generate w p).2.data DataType.addressOff =
      lookupData w.data DataType.addressOff := by
  by_cases hc : p.changeIdx = ChangeArg.notAChange
  · rw [generate_eq_of_badChange w p hc]
  by_cases hn : p.addrNum < 0 ∨ keyIndexMaxVal < p.addrNum
  · rw [generate_eq_of_badNum w p hc hn]
  by_cases ho : p.addrOff < 0 ∨ keyIndexMaxVal < p.addrOff + p.addrNum
  · rw [generate_eq_of_badOff w p hc hn ho]
  rw [generate_eq_of_walk w p hc hn ho]
  have hx := walk_exData w.bipObj w.data p.accIdx p.changeIdx DataType.addressOff
    (by decide) (by decide) (by decide) (by decide) (by decide) (by decide)
  cases hw : walk w.bipObj w.data p.accIdx p.changeIdx with
  | error q =>
      obtain ⟨e, dq⟩ := q
      rw [hw] at hx
      simp only [exData] at hx
      exact hx
  | ok s =>
      obtain ⟨b1, d1⟩ := s
      rw [hw] at hx
      simp only [exData] at hx
      show lookupData (blockFinal b1 d1 p.addrNum p.addrOff) DataType.addressOff = _
      unfold blockFinal
      split
      · rw [lookupData_setData_ne _ _ _ _ (by decide), h0, if_neg (by decide),
          lookupData_setData_ne _ _ _ _ (by decide)]
        exact hx
      · rw [lookupData_setData_ne _ _ _ _ (by decide)]
        exact hx

/-- Witness for C5 (amended) at a concrete wallet and zero offset. -/
theorem generate_zero_off_preserves_address_off_witness :
    lookupData (generate cexWallet cexParamsOff0).2.data DataType.addressOff =
      lookupData cexWallet.data DataType.addressOff :=
  generate_zero_off_preserves_address_off cexWallet cexParamsOff0 (by decide)

/-- C9 (amended): after a successful `Generate` on a key at CHANGE level
or above, when no address-offset entry was present before the call (for
example on a freshly constructed wallet), the address-offset entry is
present afterwards iff `addr_off` was nonzero; a call with `addr_off` 0
records no entry at all. (On a wallet that already carries an
address-offset entry the equivalence fails: the entry survives.) -/
theorem address_off_presence_fresh_iff (w : Wallet) (p : GenParams)
    (habs : lookupData w.data DataType.addressOff = none)
    (hl : w.bipObj.level ≠ Bip44Level.addressIndex)
    (hok : (generate w p).1 = Except.ok ()) :
    (lookupData (generate w p).2.data DataType.addressOff ≠ none ↔ p.addrOff ≠ 0) := by
  by_cases hc : p.changeIdx = ChangeArg.notAChange
  · rw [generate_eq_of_badChange w p hc] at hok
    exact absurd hok (by simp)
  by_cases hn : p.addrNum < 0 ∨ keyIndexMaxVal < p.addrNum
  · rw [generate_eq_of_badNum w p hc hn] at hok
    exact absurd hok (by simp)
  by_cases ho : p.addrOff < 0 ∨ keyIndexMaxVal < p.addrOff + p.addrNum
  · rw [generate_eq_of_badOff w p hc hn ho] at hok
    exact absurd hok (by simp)
  rw [generate_eq_of_walk w p hc hn ho]
  have hx := walk_exData w.bipObj w.data p.accIdx p.changeIdx DataType.addressOff
    (by decide) (by decide) (by decide) (by decide) (by decide) (by decide)
  cases hw : walk w.bipObj w.data p.accIdx p.changeIdx with
  | error q =>
      obtain ⟨e, dq⟩ := q
      rw [generate_eq_of_walk w p hc hn ho, hw] at hok
      exact absurd hok (by simp)
  | ok s =>
      obtain ⟨b1, d1⟩ := s
      rw [hw] at hx
      simp only [exData] at hx
      rcases walk_ok_level _ _ _ _ _ _ hw with hchg | ⟨hb, hd, hlv⟩
      · show lookupData (blockFinal b1 d1 p.addrNum p.addrOff) DataType.addressOff ≠ none ↔ _
        unfold blockFinal
        rw [if_pos hchg, lookupData_setData_ne _ _ _ _ (by decide)]
        by_cases hoff : p.addrOff ≠ 0
        · rw [if_pos hoff, lookupData_setData_same]
          simp [hoff]
        · rw [if_neg hoff, lookupData_setData_ne _ _ _ _ (by decide), hx, habs]
          simp [hoff]
      · exact absurd hlv hl

/-- Witness for C9 (amended): a fresh master-level wallet with a nonzero
offset. -/
theorem address_off_presence_fresh_iff_witness :
    lookupData cexWallet.data DataType.addressOff = none ∧
    ((lookupData (generate cexWallet cexParamsOff5).2.data DataType.addressOff ≠ none) ↔
      cexParamsOff5.addrOff ≠ 0) :=
  ⟨rfl, address_off_presence_fresh_iff cexWallet cexParamsOff5 rfl (by decide) rfl⟩

/-- C4 (amended): a `Generate` call that fails during parameter
validation (invalid change type or range overflow) leaves the wallet
state exactly as it was; a call that fails later, during derivation, may
leave fields written before the failure modified. -/
theorem generate_validation_failure_preserves_state (w : Wallet) (p : GenParams)
    (h : (generate w p).1 = Except.error GenError.invalidChangeType ∨
         (generate w p).1 = Except.error GenError.rangeOverflow) :
    (generate w p).2 = w := by
  by_cases hc : p.changeIdx = ChangeArg.notAChange
  · rw [generate_eq_of_badChange w p hc]
  by_cases hn : p.addrNum < 0 ∨ keyIndexMaxVal < p.addrNum
  · rw [generate_eq_of_badNum w p hc hn]
  by_cases ho : p.addrOff < 0 ∨ keyIndexMaxVal < p.addrOff + p.addrNum
  · rw [generate_eq_of_badOff w p hc hn ho]
  rw [generate_eq_of_walk w p hc hn ho] at h
  cases hw : walk w.bipObj w.data p.accIdx p.changeIdx with
  | error q =>
      obtain ⟨e, dq⟩ := q
      rw [hw] at h
      rcases walk_error_class _ _ _ _ _ _ hw with he | he <;>
        rcases h with h | h <;>
          · rw [Except.error.inj h] at he
            exact absurd he (by simp)
  | ok s =>
      obtain ⟨b1, d1⟩ := s
      rw [hw] at h
      rcases h with h | h <;> exact Except.noConfusion h

/-- Witness for C4 (amended): a call rejected by the range check leaves
the concrete wallet untouched. -/
theorem generate_validation_failure_preserves_state_witness :
    (generate cexWallet cexParamsBadNum).2 = cexWallet :=
  generate_validation_failure_preserves_state cexWallet cexParamsBadNum (Or.inr rfl)

/-- C4 counterexample: on a wallet that already generated successfully
with account index 0, a second `Generate` with `acc_idx = -1` fails
during derivation (after the range checks) yet changes the stored
account-index entry from 0 to -1: the prior WalletTree contents are not
left untouched. -/
theorem generate_partial_state_cex :
    ((generate (generate cexWallet cexParamsOff0).2 cexParamsBadAcc).1 =
      Except.error GenError.invalidIndex) ∧
    lookupData (generate cexWallet cexParamsOff0).2.data DataType.accountIdx =
      some (WalletValue.int 0) ∧
    lookupData (generate (generate cexWallet cexParamsOff0).2 cexParamsBadAcc).2.data
      DataType.accountIdx = some (WalletValue.int (-1)) ∧
    (generate (generate cexWallet cexParamsOff0).2 cexParamsBadAcc).2.data ≠
      (generate cexWallet cexParamsOff0).2.data := by
  refine ⟨rfl, rfl, rfl, fun hEq => ?_⟩
  have h1 : lookupData
      (generate (generate cexWallet cexParamsOff0).2 cexParamsBadAcc).2.data
      DataType.accountIdx = some (WalletValue.int (-1)) := rfl
  rw [hEq] at h1
  have h2 : lookupData (generate cexWallet cexParamsOff0).2.data DataType.accountIdx =
      some (WalletValue.int 0) := rfl
  rw [h2] at h1
  simp at h1

/-- C5 counterexample: a successful `Generate` with offset 5 followed by
a successful `Generate` with offset 0 leaves the address-offset entry of
the first call in the tree, even though a call with offset 0 on a fresh
wallet produces no such entry: the second call does not fully replace the
first call's result. -/
theorem generate_stale_address_off_cex :
    ((generate cexWallet cexParamsOff5).1 = Except.ok ()) ∧
    ((generate (generate cexWallet cexParamsOff5).2 cexParamsOff0).1 = Except.ok ()) ∧
    (lookupData (generate (generate cexWallet cexParamsOff5).2 cexParamsOff0).2.data
      DataType.addressOff = some (WalletValue.int 5)) ∧
    (lookupData (generate cexWallet cexParamsOff0).2.data DataType.addressOff = none) :=
  ⟨rfl, rfl, rfl, rfl⟩

/-- C9 counterexample: after a successful `Generate` with `addr_off = 0`
on a master-level wallet that had previously generated with offset 5, the
address-offset entry is still present (with value 5) although the
`addr_off` parameter of the last call was zero. -/
theorem address_off_present_zero_param_cex :
    ((generate (generate cexWallet cexParamsOff5).2 cexParamsOff0).1 = Except.ok ()) ∧
    cexParamsOff0.addrOff = 0 ∧
    lookupData (generate (generate cexWallet cexParamsOff5).2 cexParamsOff0).2.data
      DataType.addressOff = some (WalletValue.int 5) :=
  ⟨rfl, rfl, rfl⟩

end HdWalletBip
